import Mathlib

/-!
Verification of the data-access and validation layer of `ProyectoV3.py`
(GestorClientes).

Python strings are embedded as lists of Unicode code points (`PyStr`), so
that SQLite's `memcmp`-style TEXT comparison becomes lexicographic order on
code points (UTF-8 byte order coincides with code-point order) and Python's
`str.lower` on the ASCII range becomes plain arithmetic.

Database tables are embedded as lists of typed rows inside a `DB` record;
each repository function is a pure function from a `DB` (and its arguments)
to a result and a new `DB`.  SQLite's per-connection `PRAGMA foreign_keys`
state is made explicit where it matters: `get_conn` opens a fresh
connection, and a fresh sqlite3 connection has foreign-key enforcement OFF
(the `PRAGMA foreign_keys = ON` inside `init_db` applies only to the
connection `init_db` itself opened).
-/

namespace Gestor

/-- Decidable equality for `Except` results, so concrete runs of the
embedded functions can be checked by `decide`. -/
instance {α β : Type} [DecidableEq α] [DecidableEq β] : DecidableEq (Except α β) := fun a b =>
  match a, b with
  | .ok x, .ok y =>
    if h : x = y then .isTrue (by rw [h])
    else .isFalse (by intro hh; cases hh; exact h rfl)
  | .error x, .error y =>
    if h : x = y then .isTrue (by rw [h])
    else .isFalse (by intro hh; cases hh; exact h rfl)
  | .ok _, .error _ => .isFalse (by intro h; cases h)
  | .error _, .ok _ => .isFalse (by intro h; cases h)

/-- A Python string, as its list of Unicode code points. -/
abbrev PyStr := List Nat

/-- Code points of a Lean string literal, used to write concrete `PyStr`s. -/
def cp (s : String) : PyStr := s.data.map Char.toNat

/-- ASCII-range `str.lower`: maps `A`–`Z` (65–90) to `a`–`z` (97–122) and
fixes everything else (all strings handled by the modelled validators are
ASCII, where Python's `str.lower` acts exactly like this). -/
def pyLower (n : Nat) : Nat := if 65 ≤ n ∧ n ≤ 90 then n + 32 else n

/-- ASCII whitespace, the characters removed by Python's `str.strip()`
(restricted to the ASCII range). -/
def isSpaceCp (n : Nat) : Bool := n == 32 || n == 9 || n == 10 || n == 11 || n == 12 || n == 13

/-- Python `str.strip()`: drop whitespace from both ends. -/
def pyStrip (s : PyStr) : PyStr :=
  ((s.dropWhile isSpaceCp).reverse.dropWhile isSpaceCp).reverse

/-- Strict lexicographic order on code-point lists; on ASCII data this is
exactly SQLite's TEXT (`memcmp` over UTF-8) ordering, since UTF-8 byte
order agrees with code-point order. -/
def pyLt : PyStr → PyStr → Bool
  | [], [] => false
  | [], _ :: _ => true
  | _ :: _, [] => false
  | a :: as, b :: bs => a < b || (a == b && pyLt as bs)

/-- `a ≤ b` on strings, as the negation of `b < a`. -/
def pyLe (a b : PyStr) : Bool := !pyLt b a

/-- Errors surfaced by the embedded layer: `sqlite3.IntegrityError`
(uniqueness violation) and Python `ValueError` (invalid input, carrying a
human-readable message), kept distinct exactly as the two exception types
are distinct in the source. -/
inductive PyError where
  | integrityError : PyError
  | valueError : PyStr → PyError
deriving DecidableEq, Repr

/-- A row of the `clientes` table. -/
structure ClienteRow where
  id : Nat
  nombre : PyStr
  apellido : PyStr
  telefono_e164 : PyStr
  email : PyStr
  activo : Nat
  notas : PyStr
  created_at : PyStr
  updated_at : PyStr
deriving DecidableEq, Repr

/-- A row of the `notas` table. -/
structure NotaRow where
  id : Nat
  cliente_id : Nat
  contenido : PyStr
  created_at : PyStr
deriving DecidableEq, Repr

/-- A row of the `turnos` table (`cliente_id` is nullable). -/
structure TurnoRow where
  id : Nat
  cliente_id : Option Nat
  inicio : PyStr
  motivo : PyStr
  created_at : PyStr
deriving DecidableEq, Repr

/-- The SQLite database of `init_db`: the four tables plus the
AUTOINCREMENT sequence counters for the three tables with generated ids
(`settings` is keyed by its string key). -/
structure DB where
  clientes : List ClienteRow
  notas : List NotaRow
  turnos : List TurnoRow
  settings : List (PyStr × PyStr)
  seqClientes : Nat
  seqNotas : Nat
  seqTurnos : Nat
deriving DecidableEq, Repr

/-- The process environment, as seen by `os.getenv`. -/
abbrev Env := PyStr → Option PyStr

/-- The `Cliente` dataclass (the `id` is generated on insert). -/
structure Cliente where
  nombre : PyStr
  apellido : PyStr
  telefono_e164 : PyStr
  email : PyStr
  activo : Nat := 1
  notas : PyStr := []
deriving DecidableEq, Repr

/-- `repo_add`: INSERT INTO clientes.  The UNIQUE index
`ux_clientes_email` makes the insert fail with `sqlite3.IntegrityError`
when a row with the same email already exists; a failed statement leaves
the database unchanged.  On success returns the fresh AUTOINCREMENT id. -/
def repo_add (db : DB) (c : Cliente) (now : PyStr) : Except PyError Nat × DB :=
  if db.clientes.any (fun r => r.email == c.email) then
    (.error .integrityError, db)
  else
    let newId := db.seqClientes + 1
    (.ok newId,
      { db with
        clientes := db.clientes ++
          [{ id := newId, nombre := c.nombre, apellido := c.apellido,
             telefono_e164 := c.telefono_e164, email := c.email,
             activo := c.activo, notas := c.notas,
             created_at := now, updated_at := now }],
        seqClientes := newId })

/-- `DELETE FROM clientes WHERE id = ?` as executed on a connection whose
foreign-key enforcement state is `fk`.  With `fk = false` (the state of
every fresh `get_conn` connection) the declared `ON DELETE CASCADE` on
`notas` and `ON DELETE SET NULL` on `turnos` do not fire: only the
`clientes` rows are removed.  With `fk = true` they would fire. -/
def delete_cliente_stmt (fk : Bool) (db : DB) (cliente_id : Nat) : DB × Nat :=
  let removed := (db.clientes.filter (fun r => r.id == cliente_id)).length
  let db' := { db with clientes := db.clientes.filter (fun r => !(r.id == cliente_id)) }
  if fk then
    ({ db' with
       notas := db'.notas.filter (fun n => !(n.cliente_id == cliente_id)),
       turnos := db'.turnos.map (fun t =>
         if t.cliente_id == some cliente_id then { t with cliente_id := none } else t) },
     removed)
  else
    (db', removed)

/-- `repo_delete_by_id`: runs the DELETE on a fresh connection, where
sqlite3's default `foreign_keys = OFF` is in force (the `PRAGMA
foreign_keys = ON` of `init_db` was scoped to `init_db`'s own connection),
and returns `cur.rowcount > 0`. -/
def repo_delete_by_id (db : DB) (cliente_id : Nat) : DB × Bool :=
  let (db', n) := delete_cliente_stmt false db cliente_id
  (db', n > 0)

/-- `repo_delete`: `DELETE FROM clientes WHERE email = ?`, also on a fresh
connection with foreign-key enforcement OFF. -/
def repo_delete (db : DB) (email : PyStr) : DB × Bool :=
  let removed := (db.clientes.filter (fun r => r.email == email)).length
  ({ db with clientes := db.clientes.filter (fun r => !(r.email == email)) },
   removed > 0)

/-- The update applied to one `clientes` row by the dynamically assembled
`UPDATE clientes SET ...` of `repo_update_by_id` / `repo_update`: each
provided field is overwritten, `activo` is stored as 1/0, and
`updated_at` is always refreshed (the SET list always ends with it). -/
def applyClienteUpdate (r : ClienteRow)
    (nombre apellido telefono_e164 email_nuevo : Option PyStr)
    (activo : Option Bool) (notas : Option PyStr) (now : PyStr) : ClienteRow :=
  { r with
    nombre := nombre.getD r.nombre,
    apellido := apellido.getD r.apellido,
    telefono_e164 := telefono_e164.getD r.telefono_e164,
    email := email_nuevo.getD r.email,
    activo := match activo with
      | some b => if b then 1 else 0
      | none => r.activo,
    notas := notas.getD r.notas,
    updated_at := now }

/-- `repo_update_by_id`: when no optional field is provided the function
returns `False` before touching the database.  Otherwise it runs one
UPDATE statement; if a new email is provided that already belongs to a
different row (while a row with this id exists), the UNIQUE index raises
`sqlite3.IntegrityError` and nothing changes.  Returns
`cur.rowcount > 0`. -/
def repo_update_by_id (db : DB) (cliente_id : Nat)
    (nombre apellido telefono_e164 email_nuevo : Option PyStr)
    (activo : Option Bool) (notas : Option PyStr) (now : PyStr) :
    Except PyError (DB × Bool) :=
  if nombre = none ∧ apellido = none ∧ telefono_e164 = none ∧
     email_nuevo = none ∧ activo = none ∧ notas = none then
    .ok (db, false)
  else if (match email_nuevo with
      | some v => db.clientes.any (fun r => r.id == cliente_id) &&
                  db.clientes.any (fun r => r.email == v && !(r.id == cliente_id))
      | none => false) then
    .error .integrityError
  else
    .ok ({ db with clientes := db.clientes.map (fun r =>
            if r.id == cliente_id then
              applyClienteUpdate r nombre apellido telefono_e164 email_nuevo activo notas now
            else r) },
         (db.clientes.filter (fun r => r.id == cliente_id)).length > 0)

/-- `repo_update`: identical SET-list assembly, addressing the row by its
current email (`WHERE email = ?`). -/
def repo_update (db : DB) (email_original : PyStr)
    (nombre apellido telefono_e164 email_nuevo : Option PyStr)
    (activo : Option Bool) (notas : Option PyStr) (now : PyStr) :
    Except PyError (DB × Bool) :=
  if nombre = none ∧ apellido = none ∧ telefono_e164 = none ∧
     email_nuevo = none ∧ activo = none ∧ notas = none then
    .ok (db, false)
  else if (match email_nuevo with
      | some v => db.clientes.any (fun r => r.email == email_original) &&
                  db.clientes.any (fun r => r.email == v && !(r.email == email_original))
      | none => false) then
    .error .integrityError
  else
    .ok ({ db with clientes := db.clientes.map (fun r =>
            if r.email == email_original then
              applyClienteUpdate r nombre apellido telefono_e164 email_nuevo activo notas now
            else r) },
         (db.clientes.filter (fun r => r.email == email_original)).length > 0)

/-- `settings` lookup, i.e. `get_settings().get(key)` (the key is the
table's primary key, so the first match is the only match). -/
def sget (db : DB) (key : PyStr) : Option PyStr :=
  (db.settings.find? (fun kv => kv.1 == key)).map (fun kv => kv.2)

/-- `set_setting`: `INSERT ... ON CONFLICT(key) DO UPDATE` (upsert). -/
def set_setting (db : DB) (key value : PyStr) : DB :=
  if db.settings.any (fun kv => kv.1 == key) then
    { db with settings := db.settings.map (fun kv => if kv.1 == key then (kv.1, value) else kv) }
  else
    { db with settings := db.settings ++ [(key, value)] }

/-- Python truthiness-based `or` on an optional string, as in
`s.get(k) or fallback`: a missing key (`None`) and an empty string are both
falsy and select the fallback. -/
def pyOrOpt (a : Option PyStr) (b : PyStr) : PyStr :=
  match a with
  | some v => if v = [] then b else v
  | none => b

/-- Python `or` on two strings: the left operand unless it is empty. -/
def pyOrS (a b : PyStr) : PyStr := if a = [] then b else a

/-- `os.getenv(key, default)`. -/
def getenv (env : Env) (key : PyStr) (default : PyStr) : PyStr :=
  (env key).getD default

/-- A decimal digit code point (`'0'`–`'9'`). -/
def isDigitCp (n : Nat) : Bool := 48 ≤ n && n ≤ 57

/-- Numeric value of a digit code point. -/
def dv (n : Nat) : Nat := n - 48

/-- Python `int(s)` on a plain string of decimal digits (the only shapes
`get_smtp_config` feeds it); other shapes raise `ValueError`, modelled as
`none`. -/
def pyToInt (s : PyStr) : Option Nat :=
  if s ≠ [] ∧ s.all isDigitCp then
    some (s.foldl (fun acc c => acc * 10 + dv c) 0)
  else none

/-- The mail configuration produced by `get_smtp_config` (`port` is the
result of `int(...)`, which can fail on a malformed stored string). -/
structure SmtpConfig where
  host : PyStr
  port : Option Nat
  user : PyStr
  password : PyStr
  fromAddr : PyStr
deriving DecidableEq, Repr

/-- `get_smtp_config`: each field is `settings.get(KEY) or os.getenv(KEY,
default)` under Python truthiness, so a stored empty string falls through
to the environment; the from-address additionally falls back to
`os.getenv("SMTP_USER", "")` and finally to `"no-reply@example.com"`, and
the port string defaults to `"587"` before `int()`. -/
def get_smtp_config (db : DB) (env : Env) : SmtpConfig :=
  { host := pyOrOpt (sget db (cp "SMTP_HOST")) (getenv env (cp "SMTP_HOST") []),
    port := pyToInt (pyOrOpt (sget db (cp "SMTP_PORT")) (getenv env (cp "SMTP_PORT") (cp "587"))),
    user := pyOrOpt (sget db (cp "SMTP_USER")) (getenv env (cp "SMTP_USER") []),
    password := pyOrOpt (sget db (cp "SMTP_PASS")) (getenv env (cp "SMTP_PASS") []),
    fromAddr := pyOrS
      (pyOrOpt (sget db (cp "SMTP_FROM"))
        (getenv env (cp "SMTP_FROM") (getenv env (cp "SMTP_USER") [])))
      (cp "no-reply@example.com") }

/-- The spec's words for the lookup rule, for comparison with the code:
"composes ... by preferring stored settings, consulting the corresponding
environment variable only when no corresponding stored setting exists" —
i.e. whenever the key is present in `settings`, its stored value (even an
empty one) is used and the environment is not consulted. -/
def smtp_field_per_claim (db : DB) (env : Env) (key : PyStr) : PyStr :=
  match sget db key with
  | some v => v
  | none => getenv env key []

/-!  ## strptime / _combine_fecha_hora

`_combine_fecha_hora` evaluates
`datetime.strptime(f"{fecha} {hora}", "%Y-%m-%d %H:%M")` and re-renders it
with `strftime`.  CPython's `_strptime` matches the format against the
regular expression built from `%Y ↦ \d\d\d\d` (exactly four digits),
`%m ↦ 1[0-2]|0[1-9]|[1-9]`, `%d ↦ 3[01]|[12]\d|0[1-9]|[1-9]`,
`%H ↦ 2[0-3]|[0-1]\d|\d`, `%M ↦ [0-5]\d|\d`, anchored at both ends, and
then builds a `datetime`, which additionally checks `1 ≤ year` and that
the day exists in the month (Gregorian leap years).  Because each one- or
two-digit field is followed by a non-digit literal (or the end of the
string), the ordered-alternative regex is equivalent to the deterministic
reader below: take two digits when they form an in-range two-digit match,
otherwise one.  `strftime("%Y-%m-%d %H:%M")` zero-pads the year to four
digits and the other fields to two. -/

/-- `%Y`: exactly four digits. -/
def readY : PyStr → Option (Nat × PyStr)
  | a :: b :: c :: d :: rest =>
    if isDigitCp a && isDigitCp b && isDigitCp c && isDigitCp d then
      some (dv a * 1000 + dv b * 100 + dv c * 10 + dv d, rest)
    else none
  | _ => none

/-- A literal character of the format string. -/
def readLit (l : Nat) : PyStr → Option PyStr
  | c :: rest => if c == l then some rest else none
  | [] => none

/-- A one-or-two-digit field: two digits whenever they are both digits and
their value satisfies the two-digit alternatives (`ok2`), else a single
digit satisfying `ok1`. -/
def readField (ok2 ok1 : Nat → Bool) : PyStr → Option (Nat × PyStr)
  | a :: b :: rest =>
    if isDigitCp a && isDigitCp b && ok2 (dv a * 10 + dv b) then
      some (dv a * 10 + dv b, rest)
    else if isDigitCp a && ok1 (dv a) then
      some (dv a, b :: rest)
    else none
  | [a] => if isDigitCp a && ok1 (dv a) then some (dv a, []) else none
  | [] => none

/-- The parsed fields of `"%Y-%m-%d %H:%M"`. -/
structure DT where
  y : Nat
  mo : Nat
  d : Nat
  h : Nat
  mi : Nat
deriving DecidableEq, Repr

/-- `datetime.strptime(s, "%Y-%m-%d %H:%M")` up to (but not including) the
calendar-validity check of the `datetime` constructor: the five fields in
sequence with their literal separators, anchored at the end of the
string. -/
def strptimeYmdHM (s : PyStr) : Option DT :=
  match readY s with
  | none => none
  | some (y, s1) =>
    match readLit 45 s1 with
    | none => none
    | some s2 =>
      match readField (fun v => 1 ≤ v && v ≤ 12) (fun v => 1 ≤ v) s2 with
      | none => none
      | some (mo, s3) =>
        match readLit 45 s3 with
        | none => none
        | some s4 =>
          match readField (fun v => 1 ≤ v && v ≤ 31) (fun v => 1 ≤ v) s4 with
          | none => none
          | some (d, s5) =>
            match readLit 32 s5 with
            | none => none
            | some s6 =>
              match readField (fun v => v ≤ 23) (fun _ => true) s6 with
              | none => none
              | some (h, s7) =>
                match readLit 58 s7 with
                | none => none
                | some s8 =>
                  match readField (fun v => v ≤ 59) (fun _ => true) s8 with
                  | none => none
                  | some (mi, s9) =>
                    if s9 = [] then some ⟨y, mo, d, h, mi⟩ else none

/-- Gregorian leap year. -/
def isLeap (y : Nat) : Bool := y % 4 == 0 && (y % 100 != 0 || y % 400 == 0)

/-- Days in a month (Gregorian). -/
def daysInMonth (y mo : Nat) : Nat :=
  if mo = 2 then (if isLeap y then 29 else 28)
  else if mo = 4 ∨ mo = 6 ∨ mo = 9 ∨ mo = 11 then 30
  else 31

/-- The range checks done by the `datetime` constructor beyond the regex:
the year is at least 1 (`datetime.MINYEAR`) and the day exists in the
month. -/
def datetimeOk (y mo d : Nat) : Bool := 1 ≤ y && 1 ≤ d && d ≤ daysInMonth y mo

/-- Zero-padded two-digit decimal rendering (for values below 100). -/
def pad2 (n : Nat) : PyStr := [48 + n / 10, 48 + n % 10]

/-- Zero-padded four-digit decimal rendering (for values below 10000). -/
def pad4 (n : Nat) : PyStr :=
  [48 + n / 1000, 48 + n / 100 % 10, 48 + n / 10 % 10, 48 + n % 10]

/-- The canonical `"YYYY-MM-DD HH:MM"` string produced by
`strftime("%Y-%m-%d %H:%M")`. -/
def canonicalDT (y mo d h mi : Nat) : PyStr :=
  pad4 y ++ 45 :: pad2 mo ++ 45 :: pad2 d ++ 32 :: pad2 h ++ 58 :: pad2 mi

/-- The `ValueError` message of `_combine_fecha_hora`. -/
def msgFechaHora : PyStr := cp "Fecha u hora inválida. Formatos esperados: AAAA-MM-DD y HH:MM"

/-- `_combine_fecha_hora`: strptime on `f"{fecha} {hora}"`, re-rendered
canonically on success; any parse or calendar failure raises `ValueError`
with the fixed message citing the expected formats. -/
def _combine_fecha_hora (fecha hora : PyStr) : Except PyError PyStr :=
  match strptimeYmdHM (fecha ++ 32 :: hora) with
  | some dt =>
    if datetimeOk dt.y dt.mo dt.d then
      .ok (canonicalDT dt.y dt.mo dt.d dt.h dt.mi)
    else .error (.valueError msgFechaHora)
  | none => .error (.valueError msgFechaHora)

/-!  ## Turnos -/

/-- `repo_turnos_add`: validates and combines the date and time, then
inserts the row (`motivo` is stripped); a combine failure propagates
before anything is written. -/
def repo_turnos_add (db : DB) (cliente_id : Option Nat) (fecha hora motivo : PyStr)
    (now : PyStr) : Except PyError (Nat × DB) :=
  match _combine_fecha_hora fecha hora with
  | .error e => .error e
  | .ok inicio =>
    let newId := db.seqTurnos + 1
    .ok (newId,
      { db with
        turnos := db.turnos ++
          [{ id := newId, cliente_id := cliente_id, inicio := inicio,
             motivo := pyStrip motivo, created_at := now }],
        seqTurnos := newId })

/-- Insert into a sorted list, before the first element not below the new
one. -/
def insertLe {α : Type} (le : α → α → Bool) (x : α) : List α → List α
  | [] => [x]
  | y :: ys => if le x y then x :: y :: ys else y :: insertLe le x ys

/-- Insertion sort by a boolean comparison: the model of `ORDER BY` (any
sort satisfying the permutation and sortedness properties is a faithful
model of SQLite's unspecified-tie ordering). -/
def sortLe {α : Type} (le : α → α → Bool) : List α → List α
  | [] => []
  | x :: xs => insertLe le x (sortLe le xs)

/-- The row shape of `repo_turnos_list` / `repo_turnos_get`: the turno
columns LEFT JOINed with the (unique, id-keyed) matching cliente. -/
def turnoJoin (db : DB) (t : TurnoRow) : TurnoRow × Option ClienteRow :=
  (t, db.clientes.find? (fun c => t.cliente_id == some c.id))

/-- `repo_turnos_list`: WHERE on `inicio` against `now` (`datetime.now`
rendered as `"%Y-%m-%d %H:%M"`), LEFT JOIN with clientes, ORDER BY
`inicio` ascending (no filter, or future filter) or descending (past
filter). -/
def repo_turnos_list (futuro : Option Bool) (now : PyStr) (db : DB) :
    List (TurnoRow × Option ClienteRow) :=
  let base : List TurnoRow :=
    match futuro with
    | some true => db.turnos.filter (fun t => pyLe now t.inicio)
    | some false => db.turnos.filter (fun t => pyLt t.inicio now)
    | none => db.turnos
  let le : TurnoRow × Option ClienteRow → TurnoRow × Option ClienteRow → Bool :=
    match futuro with
    | some false => fun (x y : TurnoRow × Option ClienteRow) => pyLe y.1.inicio x.1.inicio
    | _ => fun (x y : TurnoRow × Option ClienteRow) => pyLe x.1.inicio y.1.inicio
  sortLe le (base.map (turnoJoin db))

/-- `repo_turnos_update`: combines the (required) date and time, then one
UPDATE that unconditionally overwrites `cliente_id`, `inicio` and the
stripped `motivo`; returns `cur.rowcount > 0`.  A combine failure raises
before the connection is opened. -/
def repo_turnos_update (db : DB) (turno_id : Nat) (cliente_id : Option Nat)
    (fecha hora motivo : PyStr) : Except PyError (DB × Bool) :=
  match _combine_fecha_hora fecha hora with
  | .error e => .error e
  | .ok inicio =>
    .ok ({ db with turnos := db.turnos.map (fun t =>
            if t.id == turno_id then
              { t with cliente_id := cliente_id, inicio := inicio, motivo := pyStrip motivo }
            else t) },
         (db.turnos.filter (fun t => t.id == turno_id)).length > 0)

/-!  ## Email validation (`validar_y_normalizar_email`) -/

/-- A code point allowed in the local part of the modelled (ASCII)
addresses: letters, digits, and `. _ % + -`. -/
def isLocalCp (n : Nat) : Bool :=
  isDigitCp n || (65 ≤ n && n ≤ 90) || (97 ≤ n && n ≤ 122) ||
  n == 46 || n == 95 || n == 37 || n == 43 || n == 45

/-- A code point allowed in a domain label: letters, digits, hyphen. -/
def isDomCp (n : Nat) : Bool :=
  isDigitCp n || (65 ≤ n && n ≤ 90) || (97 ≤ n && n ≤ 122) || n == 45

/-- No two consecutive dots. -/
def noDoubleDot : PyStr → Bool
  | a :: b :: rest => !(a == 46 && b == 46) && noDoubleDot (b :: rest)
  | _ => true

/-- Split at a unique `@` (code point 64): `none` when the string does not
contain exactly one `@`. -/
def splitAt64 : PyStr → Option (PyStr × PyStr)
  | [] => none
  | c :: rest =>
    if c == 64 then
      if rest.contains 64 then none else some ([], rest)
    else (splitAt64 rest).map (fun p => (c :: p.1, p.2))

/-- Split a domain into its dot-separated labels. -/
def splitDots : PyStr → List PyStr
  | [] => [[]]
  | c :: rest =>
    if c == 46 then [] :: splitDots rest
    else
      match splitDots rest with
      | l :: ls => (c :: l) :: ls
      | [] => [[c]]

/-- A syntactically acceptable local part: nonempty, allowed characters,
no leading, trailing or doubled dot. -/
def localOk (l : PyStr) : Bool :=
  !l.isEmpty && l.all isLocalCp && !(l.head? == some 46) &&
  !(l.getLast? == some 46) && noDoubleDot l

/-- A nonempty all-allowed-characters domain label. -/
def labelOk (p : PyStr) : Bool := !p.isEmpty && p.all isDomCp

/-- A domain: at least two labels (the validator requires a period after
the `@`), each nonempty and made of allowed characters. -/
def domainOk (d : PyStr) : Bool :=
  decide (2 ≤ (splitDots d).length) && (splitDots d).all labelOk

/-- Modelled from the spec: the third-party `validate_email` call (the
`email_validator` package, with `check_deliverability=True`) is not part of
this repository; following the spec — "validates syntax and (where
feasible) domain deliverability; on success returns the address
lower-cased" — it is modelled for ASCII addresses as: exactly one `@`,
an acceptable local part, a dotted domain of acceptable labels; the
returned `result.email` has the domain (only) lowercased, the local part
preserved.  On failure it raises with a human-readable reason. -/
def validate_email_lib (s : PyStr) : Except PyStr PyStr :=
  match splitAt64 s with
  | none => .error (cp "The email address is not valid. It must have exactly one @-sign.")
  | some (l, d) =>
    if localOk l && domainOk d then .ok (l ++ 64 :: d.map pyLower)
    else .error (cp "The email address is not valid.")

/-- `validar_y_normalizar_email`: `validate_email(...).email.lower()`, and
on `EmailNotValidError` raises `ValueError(f"Email inválido: {e}")`. -/
def validar_y_normalizar_email (s : PyStr) : Except PyError PyStr :=
  match validate_email_lib s with
  | .ok r => .ok (r.map pyLower)
  | .error e => .error (.valueError (cp "Email inválido: " ++ e))

/-!  ## Phone validation (`validar_y_normalizar_telefono`) -/

/-- Decimal digits of `n`, most significant first, via fuel-indexed
structural recursion (so that it evaluates inside the kernel). -/
def natToDecFuel : Nat → Nat → PyStr
  | 0, _ => []
  | fuel + 1, n => if n < 10 then [48 + n] else natToDecFuel fuel (n / 10) ++ [48 + n % 10]

/-- Decimal code-point rendering of a natural number. -/
def natToDec (n : Nat) : PyStr := natToDecFuel (n + 1) n

/-- The country calling code of a supported two-letter region (the model
carries the two regions the program documents: the default `"US"` and the
suggested `"AR"`). -/
def regionCC (region : PyStr) : Option Nat :=
  if region = cp "US" then some 1
  else if region = cp "AR" then some 54
  else none

/-- Separator characters the parser discards: space, dash, dot,
parentheses. -/
def stripPhoneSeps (s : PyStr) : PyStr :=
  s.filter (fun c => !(c == 32 || c == 45 || c == 46 || c == 40 || c == 41))

/-- A parsed phone number: country calling code plus the national number
kept as its digit string. -/
structure PhoneNum where
  cc : Nat
  national : PyStr
deriving DecidableEq, Repr

/-- Modelled from the spec: `phonenumbers.parse` (the `phonenumbers`
package) is not part of this repository; following the spec — "parses the
string as a phone number in that region" — it is modelled as: separators
are discarded; a leading `+` selects international form, whose country
code must be one the model knows and whose remainder is the national
number; otherwise the digits are a national number in the given region,
whose calling code the region table supplies.  Anything non-numeric after
separator removal, or an unknown region/country code, raises
`NumberParseException` with a reason. -/
def phonenumbers_parse (tel : PyStr) (region : PyStr) : Except PyStr PhoneNum :=
  let t := stripPhoneSeps tel
  match t with
  | 43 :: rest =>
    if rest ≠ [] ∧ rest.all isDigitCp then
      if (natToDec 1).isPrefixOf rest then
        .ok ⟨1, rest.drop (natToDec 1).length⟩
      else if (natToDec 54).isPrefixOf rest then
        .ok ⟨54, rest.drop (natToDec 54).length⟩
      else .error (cp "Could not interpret numbers after plus-sign.")
    else .error (cp "The string supplied did not seem to be a phone number.")
  | _ =>
    if t ≠ [] ∧ t.all isDigitCp then
      match regionCC region with
      | some cc => .ok ⟨cc, t⟩
      | none => .error (cp "Missing or invalid default region.")
    else .error (cp "The string supplied did not seem to be a phone number.")

/-- Modelled from the spec: `phonenumbers.is_valid_number`, reduced to the
national significant-number patterns of the two modelled regions (NANP:
ten digits with a 2–9 area-code leading digit; AR: ten digits). -/
def is_valid_number (num : PhoneNum) : Bool :=
  if num.cc = 1 then
    num.national.length == 10 &&
    (match num.national.head? with
     | some a => 50 ≤ a && a ≤ 57
     | none => false)
  else if num.cc = 54 then num.national.length == 10
  else false

/-- Modelled from the spec: `phonenumbers.is_valid_number_for_region`,
true when the number's country code is the one belonging to the region. -/
def is_valid_number_for_region (num : PhoneNum) (region : PyStr) : Bool :=
  regionCC region == some num.cc

/-- `phonenumbers.format_number(num, PhoneNumberFormat.E164)`: a `+`
followed by the country code and the national number, no separators. -/
def format_E164 (num : PhoneNum) : PyStr := 43 :: natToDec num.cc ++ num.national

/-- `validar_y_normalizar_telefono`: parse, then require the number to be
valid and valid for the region (else `ValueError` naming the region),
re-raising a parse failure as `ValueError` with the parser's reason; on
success returns the E.164 rendering. -/
def validar_y_normalizar_telefono (tel : PyStr) (region : PyStr) : Except PyError PyStr :=
  match phonenumbers_parse tel region with
  | .error e => .error (.valueError (cp "Teléfono inválido: " ++ e))
  | .ok num =>
    if is_valid_number num && is_valid_number_for_region num region then
      .ok (format_E164 num)
    else
      .error (.valueError (cp "Teléfono inválido para la región " ++ region ++ cp "."))

/-!  ## Concrete sample data, used to exercise the embedded operations -/

/-- A stored customer row. -/
def anaRow : ClienteRow :=
  { id := 1, nombre := cp "Ana", apellido := cp "Gómez",
    telefono_e164 := cp "+14155552671", email := cp "ana@example.com",
    activo := 1, notas := [], created_at := cp "2024-01-01T09:00:00",
    updated_at := cp "2024-01-01T09:00:00" }

/-- A second stored customer row, with id 5. -/
def beaRow : ClienteRow :=
  { id := 5, nombre := cp "Bea", apellido := cp "Ruiz",
    telefono_e164 := cp "+14155550123", email := cp "bea@example.com",
    activo := 1, notas := cp "old", created_at := cp "2024-01-02T09:00:00",
    updated_at := cp "2024-01-02T09:00:00" }

/-- A note owned by customer 1. -/
def notaAna : NotaRow :=
  { id := 1, cliente_id := 1, contenido := cp "llamar", created_at := cp "2024-01-03T09:00:00" }

/-- An appointment referencing customer 1. -/
def turnoAna : TurnoRow :=
  { id := 1, cliente_id := some 1, inicio := cp "2024-05-05 10:00",
    motivo := cp "control", created_at := cp "2024-01-04T09:00:00" }

/-- An appointment referencing customer 7 (used against `repo_turnos_update`). -/
def turnoSiete : TurnoRow :=
  { id := 1, cliente_id := some 7, inicio := cp "2024-05-05 10:00",
    motivo := cp "control", created_at := cp "2024-01-04T09:00:00" }

/-- A small populated database. -/
def sampleDB : DB :=
  { clientes := [anaRow, beaRow], notas := [notaAna], turnos := [turnoAna],
    settings := [], seqClientes := 5, seqNotas := 1, seqTurnos := 1 }

/-- A database with one appointment whose customer reference is 7. -/
def turnosDB : DB :=
  { clientes := [], notas := [], turnos := [turnoSiete],
    settings := [], seqClientes := 0, seqNotas := 0, seqTurnos := 1 }

/-- `turnosDB` after a full rewrite of its single appointment. -/
def turnosDBupd : DB :=
  { turnosDB with
    turnos := [{ turnoSiete with
      cliente_id := some 2, inicio := cp "2024-06-07 09:30", motivo := cp "chequeo" }] }

/-- A database whose stored `SMTP_HOST` setting exists but is empty (what
the web `ajustes` form stores for a field left blank). -/
def smtpDB : DB :=
  { clientes := [], notas := [], turnos := [],
    settings := [(cp "SMTP_HOST", []), (cp "SMTP_FROM", cp "boss@example.com")],
    seqClientes := 0, seqNotas := 0, seqTurnos := 0 }

/-- An environment that sets `SMTP_HOST` only. -/
def smtpEnv : Env := fun k => if k = cp "SMTP_HOST" then some (cp "envhost") else none

/-- The spec's words for the success condition of `_combine_fecha_hora`,
for comparison with the code: "the date parses as a valid calendar date in
format YYYY-MM-DD" — four year digits, a dash, two month digits, a dash,
two day digits, with the fields in calendar range. -/
def strictDateB (s : PyStr) : Bool :=
  match s with
  | [a, b, c, d, s1, e, f, s2, g, h] =>
    s1 == 45 && s2 == 45 && [a, b, c, d, e, f, g, h].all isDigitCp &&
    (let y := dv a * 1000 + dv b * 100 + dv c * 10 + dv d
     let mo := dv e * 10 + dv f
     let dd := dv g * 10 + dv h
     1 ≤ y && 1 ≤ mo && mo ≤ 12 && 1 ≤ dd && dd ≤ daysInMonth y mo)
  | _ => false

/-!  # Theorems -/

/-- C1: in a database state holding exactly one customer row with a given
normalized email, `repo_add` of a second customer with that same email
fails with `sqlite3.IntegrityError` (an error distinct from the
invalid-input `ValueError`), and afterwards exactly one row with that
email exists in storage — the original row, in an unchanged database. -/
theorem repo_add_duplicate_email_fails (db : DB) (c : Cliente) (r : ClienteRow) (now : PyStr)
    (h : db.clientes.filter (fun x => x.email == c.email) = [r]) :
    repo_add db c now = (.error .integrityError, db) ∧
    (repo_add db c now).2.clientes.filter (fun x => x.email == c.email) = [r] ∧
    ∀ m, (PyError.integrityError : PyError) ≠ PyError.valueError m := by
  have hr : r ∈ db.clientes.filter (fun x => x.email == c.email) := by
    rw [h]; exact List.mem_singleton_self r
  rw [List.mem_filter] at hr
  have hany : db.clientes.any (fun x => x.email == c.email) = true :=
    List.any_eq_true.mpr ⟨r, hr.1, hr.2⟩
  have hres : repo_add db c now = (.error .integrityError, db) := by
    simp [repo_add, hany]
  exact ⟨hres, by rw [hres]; exact h, fun m hm => PyError.noConfusion hm⟩

/-- Witness for C1: in `sampleDB` (which holds exactly one row with email
`ana@example.com`) re-inserting `ana@example.com` fails with
`IntegrityError` and leaves the database unchanged. -/
theorem repo_add_duplicate_email_fails_witness :
    repo_add sampleDB
      { nombre := cp "Ana", apellido := cp "García",
        telefono_e164 := cp "+14155559999", email := cp "ana@example.com" }
      (cp "2024-06-01T00:00:00") = (.error .integrityError, sampleDB) :=
  (repo_add_duplicate_email_fails sampleDB
    { nombre := cp "Ana", apellido := cp "García",
      telefono_e164 := cp "+14155559999", email := cp "ana@example.com" }
    anaRow (cp "2024-06-01T00:00:00") (by decide)).1

/-- C2: the claim describes the declared `ON DELETE CASCADE` /
`ON DELETE SET NULL` behaviour, but `repo_delete_by_id` runs on a fresh
`get_conn` connection where sqlite3's foreign-key enforcement is OFF
(`init_db`'s `PRAGMA foreign_keys = ON` was scoped to `init_db`'s own
connection): the customer row is removed, yet its note rows and the
appointment references survive untouched — while the same DELETE on a
connection with enforcement ON (last two conjuncts) would have removed the
note and nulled the reference, as the schema declares. -/
theorem repo_delete_by_id_leaves_orphans :
    (∀ (db : DB) (cid : Nat),
      (repo_delete_by_id db cid).1.notas = db.notas ∧
      (repo_delete_by_id db cid).1.turnos = db.turnos) ∧
    repo_delete_by_id sampleDB 1 =
      ({ sampleDB with clientes := [beaRow] }, true) ∧
    (delete_cliente_stmt true sampleDB 1).1.notas = [] ∧
    (delete_cliente_stmt true sampleDB 1).1.turnos = [{ turnoAna with cliente_id := none }] := by
  refine ⟨fun db cid => ?_, by decide, by decide, by decide⟩
  simp [repo_delete_by_id, delete_cliente_stmt]

/-- C10: calling customer update with no optional field supplied returns
`False` before opening any connection, leaving the whole database
unchanged — in particular the addressed row's `updated_at` is not
refreshed — both when addressing by id (`repo_update_by_id`) and by email
(`repo_update`), even though the addressed row exists. -/
theorem repo_update_no_fields_is_noop (db : DB) (cid : Nat) (e now : PyStr)
    (h1 : ∃ r ∈ db.clientes, r.id = cid) (h2 : ∃ r ∈ db.clientes, r.email = e) :
    repo_update_by_id db cid none none none none none none now = .ok (db, false) ∧
    repo_update db e none none none none none none now = .ok (db, false) := by
  constructor
  · simp [repo_update_by_id]
  · simp [repo_update]

/-- Witness for C10: customer 5 of `sampleDB` exists, and the empty update
addressed either way returns `False` and changes nothing. -/
theorem repo_update_no_fields_is_noop_witness :
    repo_update_by_id sampleDB 5 none none none none none none (cp "2024-06-01T00:00:00") =
      .ok (sampleDB, false) ∧
    repo_update sampleDB (cp "bea@example.com") none none none none none none
      (cp "2024-06-01T00:00:00") = .ok (sampleDB, false) :=
  repo_update_no_fields_is_noop sampleDB 5 (cp "bea@example.com") (cp "2024-06-01T00:00:00")
    ⟨beaRow, by decide, by decide⟩ ⟨beaRow, by decide, by decide⟩

/-- C4: updating customer id 5 with only a new `notas` value changes only
that row's notes field and update timestamp: its name, last name, phone,
email, active flag and creation timestamp are untouched, every other
customer row is returned verbatim, and every other table (and sequence
counter) of the database is unchanged. -/
theorem repo_update_by_id_only_notas_frame (db : DB) (v now : PyStr) :
    ∃ db' b, repo_update_by_id db 5 none none none none none (some v) now = .ok (db', b) ∧
      db'.notas = db.notas ∧ db'.turnos = db.turnos ∧ db'.settings = db.settings ∧
      db'.seqClientes = db.seqClientes ∧ db'.seqNotas = db.seqNotas ∧
      db'.seqTurnos = db.seqTurnos ∧
      db'.clientes.length = db.clientes.length ∧
      ∀ (i : Nat) (hi : i < db.clientes.length) (hi' : i < db'.clientes.length),
        (db'.clientes.get ⟨i, hi'⟩).nombre = (db.clientes.get ⟨i, hi⟩).nombre ∧
        (db'.clientes.get ⟨i, hi'⟩).apellido = (db.clientes.get ⟨i, hi⟩).apellido ∧
        (db'.clientes.get ⟨i, hi'⟩).telefono_e164 = (db.clientes.get ⟨i, hi⟩).telefono_e164 ∧
        (db'.clientes.get ⟨i, hi'⟩).email = (db.clientes.get ⟨i, hi⟩).email ∧
        (db'.clientes.get ⟨i, hi'⟩).activo = (db.clientes.get ⟨i, hi⟩).activo ∧
        (db'.clientes.get ⟨i, hi'⟩).created_at = (db.clientes.get ⟨i, hi⟩).created_at ∧
        (db'.clientes.get ⟨i, hi'⟩).id = (db.clientes.get ⟨i, hi⟩).id ∧
        ((db.clientes.get ⟨i, hi⟩).id ≠ 5 →
          db'.clientes.get ⟨i, hi'⟩ = db.clientes.get ⟨i, hi⟩) ∧
        ((db.clientes.get ⟨i, hi⟩).id = 5 →
          (db'.clientes.get ⟨i, hi'⟩).notas = v ∧
          (db'.clientes.get ⟨i, hi'⟩).updated_at = now) := by
  have hres : repo_update_by_id db 5 none none none none none (some v) now =
      .ok ({ db with clientes := db.clientes.map (fun r =>
              if r.id == 5 then applyClienteUpdate r none none none none none (some v) now
              else r) },
           (db.clientes.filter (fun r => r.id == 5)).length > 0) := by
    simp [repo_update_by_id]
  have hrow : ∀ r : ClienteRow,
      let r' := if r.id == 5 then applyClienteUpdate r none none none none none (some v) now
        else r
      r'.nombre = r.nombre ∧ r'.apellido = r.apellido ∧
      r'.telefono_e164 = r.telefono_e164 ∧ r'.email = r.email ∧ r'.activo = r.activo ∧
      r'.created_at = r.created_at ∧ r'.id = r.id ∧
      (r.id ≠ 5 → r' = r) ∧ (r.id = 5 → r'.notas = v ∧ r'.updated_at = now) := by
    intro r
    by_cases h5 : r.id = 5 <;> simp [h5, applyClienteUpdate]
  refine ⟨_, _, hres, rfl, rfl, rfl, rfl, rfl, rfl, by simp, ?_⟩
  intro i hi hi'
  have hmap : (db.clientes.map (fun r =>
      if r.id == 5 then applyClienteUpdate r none none none none none (some v) now
      else r)).get ⟨i, by simpa using hi⟩ =
      (fun r => if r.id == 5 then applyClienteUpdate r none none none none none (some v) now
        else r) (db.clientes.get ⟨i, hi⟩) := by
    simp
  have hgoal := hrow (db.clientes.get ⟨i, hi⟩)
  simp only [List.get_eq_getElem] at hmap hgoal ⊢
  rw [hmap]
  exact hgoal

/-- Witness for C4: the notas-only update of customer 5 in `sampleDB`
rewrites only that row's notes and update timestamp. -/
theorem repo_update_by_id_only_notas_frame_witness :
    ∃ db' b, repo_update_by_id sampleDB 5 none none none none none (some (cp "VIP"))
        (cp "2024-06-01T00:00:00") = .ok (db', b) ∧
      db'.notas = sampleDB.notas ∧ db'.turnos = sampleDB.turnos ∧
      db'.settings = sampleDB.settings ∧
      db'.seqClientes = sampleDB.seqClientes ∧ db'.seqNotas = sampleDB.seqNotas ∧
      db'.seqTurnos = sampleDB.seqTurnos ∧
      db'.clientes.length = sampleDB.clientes.length ∧
      ∀ (i : Nat) (hi : i < sampleDB.clientes.length) (hi' : i < db'.clientes.length),
        (db'.clientes.get ⟨i, hi'⟩).nombre = (sampleDB.clientes.get ⟨i, hi⟩).nombre ∧
        (db'.clientes.get ⟨i, hi'⟩).apellido = (sampleDB.clientes.get ⟨i, hi⟩).apellido ∧
        (db'.clientes.get ⟨i, hi'⟩).telefono_e164 = (sampleDB.clientes.get ⟨i, hi⟩).telefono_e164 ∧
        (db'.clientes.get ⟨i, hi'⟩).email = (sampleDB.clientes.get ⟨i, hi⟩).email ∧
        (db'.clientes.get ⟨i, hi'⟩).activo = (sampleDB.clientes.get ⟨i, hi⟩).activo ∧
        (db'.clientes.get ⟨i, hi'⟩).created_at = (sampleDB.clientes.get ⟨i, hi⟩).created_at ∧
        (db'.clientes.get ⟨i, hi'⟩).id = (sampleDB.clientes.get ⟨i, hi⟩).id ∧
        ((sampleDB.clientes.get ⟨i, hi⟩).id ≠ 5 →
          db'.clientes.get ⟨i, hi'⟩ = sampleDB.clientes.get ⟨i, hi⟩) ∧
        ((sampleDB.clientes.get ⟨i, hi⟩).id = 5 →
          (db'.clientes.get ⟨i, hi'⟩).notas = cp "VIP" ∧
          (db'.clientes.get ⟨i, hi'⟩).updated_at = cp "2024-06-01T00:00:00") :=
  repo_update_by_id_only_notas_frame sampleDB (cp "VIP") (cp "2024-06-01T00:00:00")

/-!  ## Order lemmas for the TEXT comparison -/

/-- `pyLt` is irreflexive. -/
theorem pyLt_irrefl (a : PyStr) : pyLt a a = false := by
  induction a with
  | nil => rfl
  | cons x xs ih => simp [pyLt, ih]

/-- `pyLt` is asymmetric. -/
theorem pyLt_asymm : ∀ {a b : PyStr}, pyLt a b = true → pyLt b a = false
  | [], [], h => by simp [pyLt] at h
  | [], _ :: _, _ => rfl
  | _ :: _, [], h => by simp [pyLt] at h
  | x :: xs, y :: ys, h => by
    simp [pyLt] at h ⊢
    rcases h with h | ⟨h1, h2⟩
    · exact ⟨by omega, fun h' => absurd h'.symm (by omega)⟩
    · exact ⟨by omega, fun _ => pyLt_asymm h2⟩

/-- `pyLt` is transitive. -/
theorem pyLt_trans : ∀ {a b c : PyStr},
    pyLt a b = true → pyLt b c = true → pyLt a c = true
  | [], _, _ :: _, _, _ => rfl
  | [], _ :: _, [], _, h2 => by simp [pyLt] at h2
  | [], [], [], h1, _ => by simp [pyLt] at h1
  | _ :: _, [], _, h1, _ => by simp [pyLt] at h1
  | _ :: _, _ :: _, [], _, h2 => by simp [pyLt] at h2
  | x :: xs, y :: ys, z :: zs, h1, h2 => by
    simp [pyLt] at h1 h2 ⊢
    rcases h1 with h1 | ⟨h1a, h1b⟩ <;> rcases h2 with h2 | ⟨h2a, h2b⟩
    · exact .inl (by omega)
    · exact .inl (by omega)
    · exact .inl (by omega)
    · exact .inr ⟨by omega, pyLt_trans h1b h2b⟩

/-- Two strings neither of which is below the other are equal. -/
theorem pyLt_connex : ∀ {a b : PyStr}, pyLt a b = false → pyLt b a = false → a = b
  | [], [], _, _ => rfl
  | [], _ :: _, h1, _ => by simp [pyLt] at h1
  | _ :: _, [], _, h2 => by simp [pyLt] at h2
  | x :: xs, y :: ys, h1, h2 => by
    simp [pyLt] at h1 h2
    have hxy : x = y := by omega
    have := pyLt_connex (h1.2 hxy) (h2.2 hxy.symm)
    rw [hxy, this]

/-- `pyLe` is transitive. -/
theorem pyLe_trans {a b c : PyStr} (h1 : pyLe a b = true) (h2 : pyLe b c = true) :
    pyLe a c = true := by
  simp [pyLe] at h1 h2 ⊢
  cases hca : pyLt c a with
  | false => rfl
  | true =>
    exfalso
    cases hbc : pyLt b c with
    | true =>
      have hba : pyLt b a = true := pyLt_trans hbc hca
      rw [h1] at hba; exact Bool.noConfusion hba
    | false =>
      have hb : b = c := pyLt_connex hbc h2
      rw [hb] at h1
      rw [h1] at hca; exact Bool.noConfusion hca

/-- `pyLe` is total. -/
theorem pyLe_total (a b : PyStr) : (pyLe a b || pyLe b a) = true := by
  simp [pyLe]
  cases h : pyLt b a with
  | false => exact .inl rfl
  | true => exact .inr (pyLt_asymm h)

/-- Inserting is a permutation of consing. -/
theorem insertLe_perm {α : Type} (le : α → α → Bool) (x : α) :
    ∀ l : List α, (insertLe le x l).Perm (x :: l)
  | [] => List.Perm.refl _
  | y :: ys => by
    by_cases h : le x y = true
    · rw [insertLe, if_pos h]
    · rw [insertLe, if_neg h]
      exact ((insertLe_perm le x ys).cons y).trans (List.Perm.swap x y ys)

/-- `sortLe` permutes its input. -/
theorem sortLe_perm {α : Type} (le : α → α → Bool) :
    ∀ l : List α, (sortLe le l).Perm l
  | [] => List.Perm.refl _
  | x :: xs =>
    ((insertLe_perm le x (sortLe le xs)).trans ((sortLe_perm le xs).cons x))

/-- Inserting into a sorted list keeps it sorted, for a transitive total
comparison. -/
theorem insertLe_pairwise {α : Type} {le : α → α → Bool}
    (htrans : ∀ a b c, le a b = true → le b c = true → le a c = true)
    (htotal : ∀ a b, (le a b || le b a) = true) (x : α) :
    ∀ {l : List α}, l.Pairwise (fun a b => le a b = true) →
      (insertLe le x l).Pairwise (fun a b => le a b = true) := by
  intro l
  induction l with
  | nil => intro _; simp [insertLe]
  | cons y ys ih =>
    intro h
    rw [List.pairwise_cons] at h
    by_cases hxy : le x y = true
    · rw [insertLe, if_pos hxy, List.pairwise_cons]
      refine ⟨?_, List.pairwise_cons.mpr h⟩
      intro z hz
      rcases List.mem_cons.mp hz with rfl | hz'
      · exact hxy
      · exact htrans x y z hxy (h.1 z hz')
    · have hyx : le y x = true := by
        have := htotal x y
        cases hle : le x y
        · rw [hle] at this; simpa using this
        · exact absurd hle hxy
      rw [insertLe, if_neg hxy, List.pairwise_cons]
      refine ⟨?_, ih h.2⟩
      intro z hz
      rcases List.mem_cons.mp ((insertLe_perm le x ys).mem_iff.mp hz) with rfl | hz'
      · exact hyx
      · exact h.1 z hz'

/-- `sortLe` sorts, for a transitive total comparison. -/
theorem sortLe_pairwise {α : Type} {le : α → α → Bool}
    (htrans : ∀ a b c, le a b = true → le b c = true → le a c = true)
    (htotal : ∀ a b, (le a b || le b a) = true) :
    ∀ l : List α, (sortLe le l).Pairwise (fun a b => le a b = true)
  | [] => List.Pairwise.nil
  | x :: xs => insertLe_pairwise htrans htotal x (sortLe_pairwise htrans htotal xs)

/-- Sorting the joined rows permutes them, so projecting back to the turno
rows recovers exactly the filtered base list (as a permutation). -/
theorem sortLe_join_map_fst (db : DB) (base : List TurnoRow)
    (le : TurnoRow × Option ClienteRow → TurnoRow × Option ClienteRow → Bool) :
    ((sortLe le (base.map (turnoJoin db))).map Prod.fst).Perm base := by
  have h := (sortLe_perm le (base.map (turnoJoin db))).map Prod.fst
  rw [List.map_map] at h
  have hid : base.map (Prod.fst ∘ turnoJoin db) = base := by
    have : (Prod.fst ∘ turnoJoin db) = id := funext fun t => rfl
    rw [this, List.map_id]
  rwa [hid] at h

/-- C5: against a fixed reference time `now`, `repo_turnos_list` with the
future filter returns exactly the appointments whose start time is `≥ now`
(as a permutation of the corresponding filter, i.e. with multiplicity),
sorted ascending by start time; with the past filter exactly those with
start time `< now`, sorted descending; with no filter all appointments,
sorted ascending; and each returned row carries the LEFT-JOINed customer
matching its appointment's customer reference. -/
theorem repo_turnos_list_spec (db : DB) (now : PyStr) :
    ((repo_turnos_list (some true) now db).map Prod.fst).Perm
        (db.turnos.filter (fun t => pyLe now t.inicio)) ∧
    (repo_turnos_list (some true) now db).Pairwise
        (fun a b => pyLe a.1.inicio b.1.inicio = true) ∧
    ((repo_turnos_list (some false) now db).map Prod.fst).Perm
        (db.turnos.filter (fun t => pyLt t.inicio now)) ∧
    (repo_turnos_list (some false) now db).Pairwise
        (fun a b => pyLe b.1.inicio a.1.inicio = true) ∧
    ((repo_turnos_list none now db).map Prod.fst).Perm db.turnos ∧
    (repo_turnos_list none now db).Pairwise
        (fun a b => pyLe a.1.inicio b.1.inicio = true) ∧
    ∀ (fut : Option Bool) (x : TurnoRow × Option ClienteRow),
      x ∈ repo_turnos_list fut now db →
      x.2 = db.clientes.find? (fun c => x.1.cliente_id == some c.id) := by
  have hAscTrans : ∀ a b c : TurnoRow × Option ClienteRow,
      pyLe a.1.inicio b.1.inicio = true → pyLe b.1.inicio c.1.inicio = true →
      pyLe a.1.inicio c.1.inicio = true := fun _ _ _ h1 h2 => pyLe_trans h1 h2
  have hAscTotal : ∀ a b : TurnoRow × Option ClienteRow,
      (pyLe a.1.inicio b.1.inicio || pyLe b.1.inicio a.1.inicio) = true :=
    fun a b => pyLe_total a.1.inicio b.1.inicio
  have hDescTrans : ∀ a b c : TurnoRow × Option ClienteRow,
      pyLe b.1.inicio a.1.inicio = true → pyLe c.1.inicio b.1.inicio = true →
      pyLe c.1.inicio a.1.inicio = true := fun _ _ _ h1 h2 => pyLe_trans h2 h1
  have hDescTotal : ∀ a b : TurnoRow × Option ClienteRow,
      (pyLe b.1.inicio a.1.inicio || pyLe a.1.inicio b.1.inicio) = true :=
    fun a b => pyLe_total b.1.inicio a.1.inicio
  refine ⟨?_, ?_, ?_, ?_, ?_, ?_, ?_⟩
  · exact sortLe_join_map_fst db _ _
  · exact sortLe_pairwise hAscTrans hAscTotal _
  · exact sortLe_join_map_fst db _ _
  · exact sortLe_pairwise hDescTrans hDescTotal _
  · exact sortLe_join_map_fst db _ _
  · exact sortLe_pairwise hAscTrans hAscTotal _
  · intro fut x hx
    have hx' : x ∈ ((match fut with
        | some true => db.turnos.filter (fun t => pyLe now t.inicio)
        | some false => db.turnos.filter (fun t => pyLt t.inicio now)
        | none => db.turnos : List TurnoRow)).map (turnoJoin db) := by
      rcases fut with _ | _ | _
      · exact ((sortLe_perm _ _).mem_iff).mp hx
      · exact ((sortLe_perm _ _).mem_iff).mp hx
      · exact ((sortLe_perm _ _).mem_iff).mp hx
    rw [List.mem_map] at hx'
    rcases hx' with ⟨t, _, ht⟩
    rw [← ht]
    rfl

/-- Witness for C5: in `sampleDB`, relative to a reference time before the
stored appointment, the future filter returns that appointment joined with
its customer and the past filter returns nothing. -/
theorem repo_turnos_list_spec_witness :
    repo_turnos_list (some true) (cp "2024-05-01 00:00") sampleDB =
      [(turnoAna, some anaRow)] ∧
    repo_turnos_list (some false) (cp "2024-05-01 00:00") sampleDB = [] ∧
    (turnoAna, (some anaRow : Option ClienteRow)).2 =
      sampleDB.clientes.find? (fun c => turnoAna.cliente_id == some c.id) :=
  ⟨by decide, by decide,
    (repo_turnos_list_spec sampleDB (cp "2024-05-01 00:00")).2.2.2.2.2.2
      (some true) (turnoAna, some anaRow) (by decide)⟩

/-- C7 counterexample: the claim says the environment is consulted "only
when no corresponding stored setting exists", but with a stored
`SMTP_HOST` setting that exists with an empty value, `get_smtp_config`
(via Python `or`-truthiness) still consults the environment and returns
its value, while the claim's reading would return the stored empty
string. -/
theorem get_smtp_config_counterexample :
    sget smtpDB (cp "SMTP_HOST") = some [] ∧
    (get_smtp_config smtpDB smtpEnv).host = cp "envhost" ∧
    smtp_field_per_claim smtpDB smtpEnv (cp "SMTP_HOST") = [] ∧
    (get_smtp_config smtpDB smtpEnv).host ≠ smtp_field_per_claim smtpDB smtpEnv (cp "SMTP_HOST") :=
  ⟨by decide, by decide, by decide, by decide⟩

/-- C7 (amended): `get_smtp_config` composes host, port, user, password
and from-address preferring a stored setting exactly when its value is
non-empty; when the stored setting is missing or empty it falls back to
the corresponding environment variable; the from-address additionally
falls back to the `SMTP_USER` environment variable and finally to the
hardcoded `no-reply@example.com`, and the port string defaults to `"587"`
(an `int` of 587). -/
theorem get_smtp_config_spec (db : DB) (env : Env) :
    (∀ v, sget db (cp "SMTP_HOST") = some v → v ≠ [] → (get_smtp_config db env).host = v) ∧
    (∀ v, sget db (cp "SMTP_USER") = some v → v ≠ [] → (get_smtp_config db env).user = v) ∧
    (∀ v, sget db (cp "SMTP_PASS") = some v → v ≠ [] → (get_smtp_config db env).password = v) ∧
    (∀ v, sget db (cp "SMTP_FROM") = some v → v ≠ [] →
      (get_smtp_config db env).fromAddr = v) ∧
    (∀ v, sget db (cp "SMTP_PORT") = some v → v ≠ [] →
      (get_smtp_config db env).port = pyToInt v) ∧
    ((sget db (cp "SMTP_HOST") = none ∨ sget db (cp "SMTP_HOST") = some []) →
      (get_smtp_config db env).host = getenv env (cp "SMTP_HOST") []) ∧
    ((sget db (cp "SMTP_USER") = none ∨ sget db (cp "SMTP_USER") = some []) →
      (get_smtp_config db env).user = getenv env (cp "SMTP_USER") []) ∧
    ((sget db (cp "SMTP_PASS") = none ∨ sget db (cp "SMTP_PASS") = some []) →
      (get_smtp_config db env).password = getenv env (cp "SMTP_PASS") []) ∧
    ((sget db (cp "SMTP_PORT") = none ∨ sget db (cp "SMTP_PORT") = some []) →
      env (cp "SMTP_PORT") = none → (get_smtp_config db env).port = some 587) ∧
    ((sget db (cp "SMTP_FROM") = none ∨ sget db (cp "SMTP_FROM") = some []) →
      env (cp "SMTP_FROM") = none → env (cp "SMTP_USER") = none →
      (get_smtp_config db env).fromAddr = cp "no-reply@example.com") := by
  refine ⟨?_, ?_, ?_, ?_, ?_, ?_, ?_, ?_, ?_, ?_⟩
  · intro v hv hne; simp [get_smtp_config, pyOrOpt, hv, hne]
  · intro v hv hne; simp [get_smtp_config, pyOrOpt, hv, hne]
  · intro v hv hne; simp [get_smtp_config, pyOrOpt, hv, hne]
  · intro v hv hne; simp [get_smtp_config, pyOrOpt, pyOrS, hv, hne]
  · intro v hv hne; simp [get_smtp_config, pyOrOpt, hv, hne]
  · rintro (h | h) <;> simp [get_smtp_config, pyOrOpt, h]
  · rintro (h | h) <;> simp [get_smtp_config, pyOrOpt, h]
  · rintro (h | h) <;> simp [get_smtp_config, pyOrOpt, h]
  · rintro (h | h) henv <;> simp [get_smtp_config, pyOrOpt, getenv, h, henv] <;> decide
  · rintro (h | h) hf hu <;>
      simp [get_smtp_config, pyOrOpt, pyOrS, getenv, h, hf, hu]

/-- Witness for C7 (amended): in `smtpDB` the stored, non-empty
`SMTP_FROM` wins over everything else. -/
theorem get_smtp_config_spec_witness :
    (get_smtp_config smtpDB smtpEnv).fromAddr = cp "boss@example.com" :=
  (get_smtp_config_spec smtpDB smtpEnv).2.2.2.1 (cp "boss@example.com") (by decide) (by decide)

/-- C6 counterexample: under the claim's sparse semantics an absent
(`None`) customer reference is "not supplied" and must keep its stored
value, but `repo_turnos_update` always overwrites it: updating the
appointment of `turnosDB` (whose stored reference is customer 7) with
`cliente_id = None` and unchanged date, time and reason nulls the stored
reference. -/
theorem repo_turnos_update_counterexample :
    turnosDB.turnos = [turnoSiete] ∧ turnoSiete.cliente_id = some 7 ∧
    repo_turnos_update turnosDB 1 none (cp "2024-05-05") (cp "10:00") (cp "control") =
      .ok ({ turnosDB with turnos := [{ turnoSiete with cliente_id := none }] }, true) :=
  ⟨rfl, rfl, by decide⟩

/-- C6 (amended): `repo_turnos_update` requires every field on every call
and overwrites the matched appointment's customer reference, start time
(the combined, validated date+time) and stripped reason unconditionally —
there is no sparse keep-stored-value semantics; rows with other ids are
untouched, the other tables are untouched, it returns whether a row with
the given id existed, and a date/time validation failure propagates as the
error with no result. -/
theorem repo_turnos_update_spec (db : DB) (turno_id : Nat) (cid : Option Nat)
    (fecha hora motivo : PyStr) :
    (∀ db' b, repo_turnos_update db turno_id cid fecha hora motivo = .ok (db', b) →
      ∃ inicio, _combine_fecha_hora fecha hora = .ok inicio ∧
        db'.clientes = db.clientes ∧ db'.notas = db.notas ∧ db'.settings = db.settings ∧
        db'.seqClientes = db.seqClientes ∧ db'.seqNotas = db.seqNotas ∧
        db'.seqTurnos = db.seqTurnos ∧
        db'.turnos.length = db.turnos.length ∧
        (∀ (i : Nat) (hi : i < db.turnos.length) (hi' : i < db'.turnos.length),
          ((db.turnos.get ⟨i, hi⟩).id ≠ turno_id →
            db'.turnos.get ⟨i, hi'⟩ = db.turnos.get ⟨i, hi⟩) ∧
          ((db.turnos.get ⟨i, hi⟩).id = turno_id →
            db'.turnos.get ⟨i, hi'⟩ =
              { db.turnos.get ⟨i, hi⟩ with
                cliente_id := cid, inicio := inicio, motivo := pyStrip motivo })) ∧
        (b = true ↔ ∃ t ∈ db.turnos, t.id = turno_id)) ∧
    (∀ e, repo_turnos_update db turno_id cid fecha hora motivo = .error e →
      _combine_fecha_hora fecha hora = .error e) := by
  cases hcomb : _combine_fecha_hora fecha hora with
  | error e0 =>
    constructor
    · intro db' b h
      rw [repo_turnos_update] at h
      simp [hcomb] at h
    · intro e h
      rw [repo_turnos_update] at h
      simp [hcomb] at h
      rw [h]
  | ok inicio =>
    constructor
    · intro db' b h
      have hres : repo_turnos_update db turno_id cid fecha hora motivo =
          .ok ({ db with turnos := db.turnos.map (fun t =>
                  if t.id == turno_id then
                    { t with cliente_id := cid, inicio := inicio, motivo := pyStrip motivo }
                  else t) },
               decide (0 < (db.turnos.filter (fun t => t.id == turno_id)).length)) := by
        rw [repo_turnos_update, hcomb]
      rw [hres] at h
      have hpair := Except.ok.inj h
      have hdb : db' = { db with turnos := db.turnos.map (fun t =>
          if t.id == turno_id then
            { t with cliente_id := cid, inicio := inicio, motivo := pyStrip motivo }
          else t) } := (Prod.ext_iff.mp hpair).1.symm
      have hb : b = decide (0 < (db.turnos.filter (fun t => t.id == turno_id)).length) :=
        (Prod.ext_iff.mp hpair).2.symm
      subst hdb
      refine ⟨inicio, rfl, rfl, rfl, rfl, rfl, rfl, rfl, by simp, ?_, ?_⟩
      · intro i hi hi'
        have hmap : (db.turnos.map (fun t =>
            if t.id == turno_id then
              { t with cliente_id := cid, inicio := inicio, motivo := pyStrip motivo }
            else t)).get ⟨i, by simpa using hi⟩ =
            (fun t => if t.id == turno_id then
              { t with cliente_id := cid, inicio := inicio, motivo := pyStrip motivo }
            else t) (db.turnos.get ⟨i, hi⟩) := by
          simp
        have hrow : ∀ t : TurnoRow,
            (t.id ≠ turno_id →
              (if t.id == turno_id then
                { t with cliente_id := cid, inicio := inicio, motivo := pyStrip motivo }
              else t) = t) ∧
            (t.id = turno_id →
              (if t.id == turno_id then
                { t with cliente_id := cid, inicio := inicio, motivo := pyStrip motivo }
              else t) =
              { t with cliente_id := cid, inicio := inicio, motivo := pyStrip motivo }) := by
          intro t
          by_cases ht : t.id = turno_id <;> simp [ht]
        have hgoal := hrow (db.turnos.get ⟨i, hi⟩)
        simp only [List.get_eq_getElem] at hmap hgoal ⊢
        rw [hmap]
        exact hgoal
      · rw [hb]
        simp only [decide_eq_true_eq]
        constructor
        · intro hpos
          rcases List.length_pos.mp hpos with h0
          have hne : db.turnos.filter (fun t => t.id == turno_id) ≠ [] := by
            intro hnil
            rw [hnil] at hpos
            simp at hpos
          rcases List.exists_mem_of_ne_nil _ hne with ⟨t, htmem⟩
          rw [List.mem_filter] at htmem
          exact ⟨t, htmem.1, by simpa using htmem.2⟩
        · intro ⟨t, htm, htid⟩
          have : t ∈ db.turnos.filter (fun t => t.id == turno_id) :=
            List.mem_filter.mpr ⟨htm, by simpa using htid⟩
          exact List.length_pos.mpr (List.ne_nil_of_mem this)
    · intro e h
      rw [repo_turnos_update] at h
      simp [hcomb] at h

/-- Witness for C6 (amended): a successful update of `turnosDB` satisfies
the overwrite-everything description. -/
theorem repo_turnos_update_spec_witness :
    ∃ inicio, _combine_fecha_hora (cp "2024-06-07") (cp "09:30") = .ok inicio ∧
      ∃ db' b, repo_turnos_update turnosDB 1 (some 2) (cp "2024-06-07") (cp "09:30")
          (cp " chequeo ") = .ok (db', b) ∧
        (b = true ↔ ∃ t ∈ turnosDB.turnos, t.id = 1) := by
  have h := (repo_turnos_update_spec turnosDB 1 (some 2) (cp "2024-06-07") (cp "09:30")
    (cp " chequeo ")).1
  have hrun : repo_turnos_update turnosDB 1 (some 2) (cp "2024-06-07") (cp "09:30")
      (cp " chequeo ") = .ok (turnosDBupd, true) := by decide
  rcases h _ _ hrun with ⟨inicio, hcomb, _, _, _, _, _, _, _, _, hb⟩
  exact ⟨inicio, hcomb, _, _, hrun, hb⟩

/-!  ## Lemmas about lower-casing and the email shape -/

/-- `pyLower` is idempotent. -/
theorem pyLower_idem (n : Nat) : pyLower (pyLower n) = pyLower n := by
  by_cases h : 65 ≤ n ∧ n ≤ 90
  · simp only [pyLower, if_pos h]
    rw [if_neg (by omega)]
  · simp only [pyLower, if_neg h]

/-- Lower-casing a whole string twice is lower-casing it once. -/
theorem map_pyLower_idem (s : PyStr) : (s.map pyLower).map pyLower = s.map pyLower := by
  rw [List.map_map]
  have h : (pyLower ∘ pyLower) = pyLower := funext pyLower_idem
  rw [h]

/-- `pyLower` reaches the dot only from the dot. -/
theorem pyLower_eq_46 {n : Nat} : pyLower n = 46 ↔ n = 46 := by
  unfold pyLower; split <;> omega

/-- `pyLower` reaches the at-sign only from the at-sign. -/
theorem pyLower_eq_64 {n : Nat} : pyLower n = 64 ↔ n = 64 := by
  unfold pyLower; split <;> omega

/-- The local-part alphabet is closed under lower-casing. -/
theorem isLocalCp_pyLower {n : Nat} (h : isLocalCp n = true) :
    isLocalCp (pyLower n) = true := by
  simp [isLocalCp, isDigitCp] at h ⊢
  unfold pyLower
  split <;> omega

/-- The domain-label alphabet is closed under lower-casing. -/
theorem isDomCp_pyLower {n : Nat} (h : isDomCp n = true) :
    isDomCp (pyLower n) = true := by
  simp [isDomCp, isDigitCp] at h ⊢
  unfold pyLower
  split <;> omega

/-- Lower-casing a local-part character never yields the at-sign. -/
theorem pyLower_ne_64_of_local {n : Nat} (h : isLocalCp n = true) : pyLower n ≠ 64 := by
  intro h64
  have := pyLower_eq_64.mp h64
  subst this
  simp [isLocalCp, isDigitCp] at h

/-- Lower-casing a domain-label character never yields the at-sign. -/
theorem pyLower_ne_64_of_dom {n : Nat} (h : isDomCp n = true) : pyLower n ≠ 64 := by
  intro h64
  have := pyLower_eq_64.mp h64
  subst this
  simp [isDomCp, isDigitCp] at h

/-- Splitting at the unique `@` recovers the two halves when neither
contains an `@`. -/
theorem splitAt64_append (l d : PyStr) (hl : ∀ c ∈ l, c ≠ 64)
    (hd : d.contains 64 = false) : splitAt64 (l ++ 64 :: d) = some (l, d) := by
  induction l with
  | nil =>
    have hd' : 64 ∉ d := by simpa using hd
    simp [splitAt64, hd']
  | cons c cs ih =>
    have hc : c ≠ 64 := hl c (List.mem_cons_self c cs)
    have ih' := ih (fun x hx => hl x (List.mem_cons_of_mem c hx))
    simp [splitAt64, hc, ih']

/-- `splitDots` never produces the empty list of labels. -/
theorem splitDots_ne_nil (s : PyStr) : splitDots s ≠ [] := by
  cases s with
  | nil => simp [splitDots]
  | cons c rest =>
    simp only [splitDots]
    split
    · simp
    · split <;> simp

/-- Splitting a lower-cased domain lower-cases each label. -/
theorem splitDots_map_pyLower (d : PyStr) :
    splitDots (d.map pyLower) = (splitDots d).map (List.map pyLower) := by
  induction d with
  | nil => rfl
  | cons c rest ih =>
    by_cases h : c = 46
    · subst h
      have h46 : pyLower 46 = 46 := by decide
      simp [splitDots, h46, ih]
    · have h2 : pyLower c ≠ 46 := fun hc => h (pyLower_eq_46.mp hc)
      cases hsp : splitDots rest with
      | nil => exact absurd hsp (splitDots_ne_nil rest)
      | cons l ls =>
        have hsp2 : splitDots (rest.map pyLower) =
            (l.map pyLower) :: ls.map (List.map pyLower) := by
          rw [ih, hsp]; rfl
        simp [splitDots, h, h2, hsp, hsp2]

/-- Every character of a domain is a dot or belongs to some label. -/
theorem mem_splitDots : ∀ (d : PyStr) (c : Nat), c ∈ d →
    c = 46 ∨ ∃ p, p ∈ splitDots d ∧ c ∈ p
  | [], c, h => absurd h (List.not_mem_nil c)
  | x :: rest, c, h => by
    rcases List.mem_cons.mp h with rfl | hr
    · by_cases hx : c = 46
      · exact .inl hx
      · refine .inr ?_
        cases hsp : splitDots rest with
        | nil => exact absurd hsp (splitDots_ne_nil rest)
        | cons l ls =>
          exact ⟨c :: l, by simp [splitDots, hx, hsp], List.mem_cons_self c l⟩
    · rcases mem_splitDots rest c hr with h46 | ⟨p, hp, hcp⟩
      · exact .inl h46
      · by_cases hx : x = 46
        · subst hx
          exact .inr ⟨p, by simp [splitDots, hp], hcp⟩
        · cases hsp : splitDots rest with
          | nil => exact absurd hsp (splitDots_ne_nil rest)
          | cons l ls =>
            rw [hsp] at hp
            rcases List.mem_cons.mp hp with rfl | hpls
            · exact .inr ⟨x :: p, by simp [splitDots, hx, hsp],
                List.mem_cons_of_mem x hcp⟩
            · exact .inr ⟨p, by simp [splitDots, hx, hsp, hpls], hcp⟩

/-- Unfolding equation of `noDoubleDot` on two heads. -/
theorem noDoubleDot_cons₂ (a b : Nat) (l : PyStr) :
    noDoubleDot (a :: b :: l) = (!(a == 46 && b == 46) && noDoubleDot (b :: l)) := rfl

/-- Lower-casing creates no doubled dot. -/
theorem noDoubleDot_map_pyLower : ∀ (l : PyStr), noDoubleDot l = true →
    noDoubleDot (l.map pyLower) = true
  | [], _ => rfl
  | [_], _ => rfl
  | a :: b :: rest, h => by
    rw [noDoubleDot_cons₂, Bool.and_eq_true] at h
    have h2 := noDoubleDot_map_pyLower (b :: rest) h.2
    rw [List.map_cons] at h2
    rw [List.map_cons, List.map_cons, noDoubleDot_cons₂, Bool.and_eq_true]
    refine ⟨?_, h2⟩
    simp only [Bool.not_eq_true', Bool.and_eq_false_iff, beq_eq_false_iff_ne, ne_eq] at h ⊢
    rcases h.1 with ha | hb
    · exact .inl fun hc => ha (pyLower_eq_46.mp hc)
    · exact .inr fun hc => hb (pyLower_eq_46.mp hc)

/-- An acceptable local part stays acceptable after lower-casing. -/
theorem localOk_map_pyLower {l : PyStr} (h : localOk l = true) :
    localOk (l.map pyLower) = true := by
  simp only [localOk, Bool.and_eq_true, Bool.not_eq_true'] at h ⊢
  obtain ⟨⟨⟨⟨hne, hall⟩, hhead⟩, hlast⟩, hdots⟩ := h
  refine ⟨⟨⟨⟨?_, ?_⟩, ?_⟩, ?_⟩, noDoubleDot_map_pyLower l hdots⟩
  · cases l <;> simp_all
  · rw [List.all_map]
    rw [List.all_eq_true] at hall ⊢
    exact fun x hx => isLocalCp_pyLower (hall x hx)
  · rw [List.head?_map]
    cases hh : l.head? with
    | none => rfl
    | some a =>
      rw [hh] at hhead
      simp only [Option.map_some']
      simp only [beq_eq_false_iff_ne, ne_eq, Option.some.injEq] at hhead ⊢
      exact fun hc => hhead (pyLower_eq_46.mp hc)
  · rw [List.getLast?_map]
    cases hh : l.getLast? with
    | none => rfl
    | some a =>
      rw [hh] at hlast
      simp only [Option.map_some']
      simp only [beq_eq_false_iff_ne, ne_eq, Option.some.injEq] at hlast ⊢
      exact fun hc => hlast (pyLower_eq_46.mp hc)

/-- An acceptable label stays acceptable after lower-casing. -/
theorem labelOk_map_pyLower {p : PyStr} (h : labelOk p = true) :
    labelOk (p.map pyLower) = true := by
  simp only [labelOk, Bool.and_eq_true, Bool.not_eq_true'] at h ⊢
  refine ⟨by cases p <;> simp_all, ?_⟩
  rw [List.all_map, List.all_eq_true]
  rw [List.all_eq_true] at h
  exact fun x hx => isDomCp_pyLower (h.2 x hx)

/-- An acceptable domain stays acceptable after lower-casing. -/
theorem domainOk_map_pyLower {d : PyStr} (h : domainOk d = true) :
    domainOk (d.map pyLower) = true := by
  simp only [domainOk, Bool.and_eq_true, decide_eq_true_eq] at h ⊢
  rw [splitDots_map_pyLower]
  refine ⟨by simpa using h.1, ?_⟩
  rw [List.all_eq_true] at h ⊢
  rintro q hq
  rw [List.mem_map] at hq
  rcases hq with ⟨p, hp, rfl⟩
  exact labelOk_map_pyLower (h.2 p hp)

/-- No character of an acceptable domain lower-cases to the at-sign. -/
theorem domain_map_ne_64 {d : PyStr} (h : domainOk d = true) :
    (d.map pyLower).contains 64 = false := by
  rw [List.contains_eq_any_beq, Bool.eq_false_iff]
  intro hany
  rw [List.any_eq_true] at hany
  rcases hany with ⟨x, hx, hbeq⟩
  rw [List.mem_map] at hx
  rcases hx with ⟨c, hc, rfl⟩
  have h64 : pyLower c = 64 := by simp at hbeq; omega
  rcases mem_splitDots d c hc with rfl | ⟨p, hp, hcp⟩
  · exact absurd h64 (by decide)
  · simp only [domainOk, Bool.and_eq_true, List.all_eq_true] at h
    have hlab := h.2 p hp
    simp only [labelOk, Bool.and_eq_true, List.all_eq_true] at hlab
    exact pyLower_ne_64_of_dom (hlab.2 c hcp) h64

/-- Inversion of a successful `validate_email_lib` run. -/
theorem validate_email_lib_ok {s v : PyStr} (h : validate_email_lib s = .ok v) :
    ∃ l d, splitAt64 s = some (l, d) ∧ localOk l = true ∧ domainOk d = true ∧
      v = l ++ 64 :: d.map pyLower := by
  rw [validate_email_lib] at h
  cases hsp : splitAt64 s with
  | none => rw [hsp] at h; exact Except.noConfusion h
  | some ld =>
    obtain ⟨l, d⟩ := ld
    rw [hsp] at h
    simp only [] at h
    by_cases hok : (localOk l && domainOk d) = true
    · rw [if_pos hok] at h
      rw [Bool.and_eq_true] at hok
      exact ⟨l, d, rfl, hok.1, hok.2, (Except.ok.inj h).symm⟩
    · rw [if_neg hok] at h
      exact Except.noConfusion h

/-- C3: email normalization is idempotent on its outputs: every accepted
input yields the validator's normalized address lower-cased, and
normalizing that output again succeeds and returns it unchanged; every
rejected input produces a `ValueError` whose message is the
`"Email inválido: "` prefix followed by the validator's human-readable
reason. -/
theorem validar_email_idempotent (s : PyStr) :
    (∀ r, validar_y_normalizar_email s = .ok r →
      (∃ v, validate_email_lib s = .ok v ∧ r = v.map pyLower) ∧
      validar_y_normalizar_email r = .ok r) ∧
    (∀ e, validar_y_normalizar_email s = .error e →
      ∃ m, e = .valueError ((cp "Email inválido: ") ++ m)) := by
  constructor
  · intro r hr
    rw [validar_y_normalizar_email] at hr
    cases hv : validate_email_lib s with
    | error e0 => rw [hv] at hr; exact Except.noConfusion hr
    | ok v =>
      rw [hv] at hr
      simp only [] at hr
      have hrv : r = v.map pyLower := (Except.ok.inj hr).symm
      refine ⟨⟨v, rfl, hrv⟩, ?_⟩
      rcases validate_email_lib_ok hv with ⟨l, d, _, hlok, hdok, hvval⟩
      have h64 : pyLower 64 = 64 := by decide
      have hr2 : r = (l.map pyLower) ++ 64 :: (d.map pyLower) := by
        rw [hrv, hvval, List.map_append, List.map_cons, h64, map_pyLower_idem]
      have hlne : ∀ c ∈ l.map pyLower, c ≠ 64 := by
        intro c hc
        rw [List.mem_map] at hc
        rcases hc with ⟨a, ha, rfl⟩
        have hall : l.all isLocalCp = true := by
          simp only [localOk, Bool.and_eq_true] at hlok
          exact hlok.1.1.1.2
        exact pyLower_ne_64_of_local ((List.all_eq_true.mp hall) a ha)
      have hsp2 : splitAt64 ((l.map pyLower) ++ 64 :: (d.map pyLower)) =
          some (l.map pyLower, d.map pyLower) :=
        splitAt64_append _ _ hlne (domain_map_ne_64 hdok)
      have hlok2 : localOk (l.map pyLower) = true := localOk_map_pyLower hlok
      have hdok2 : domainOk (d.map pyLower) = true := domainOk_map_pyLower hdok
      have hlib2 : validate_email_lib r = .ok ((l.map pyLower) ++ 64 :: (d.map pyLower)) := by
        rw [validate_email_lib, hr2, hsp2]
        simp only []
        rw [if_pos (by rw [hlok2, hdok2]; rfl), map_pyLower_idem]
      rw [validar_y_normalizar_email, hlib2]
      simp only []
      rw [hr2, List.map_append, List.map_cons, h64, map_pyLower_idem, map_pyLower_idem]
  · intro e he
    rw [validar_y_normalizar_email] at he
    cases hv : validate_email_lib s with
    | ok v => rw [hv] at he; exact Except.noConfusion he
    | error e0 =>
      rw [hv] at he
      simp only [] at he
      exact ⟨e0, (Except.error.inj he).symm⟩

/-- Witness for C3: `ANA@Example.com` is accepted, lower-cased to
`ana@example.com`, and normalizing the output again returns it
unchanged. -/
theorem validar_email_idempotent_witness :
    validar_y_normalizar_email (cp "ANA@Example.com") = .ok (cp "ana@example.com") ∧
    validar_y_normalizar_email (cp "ana@example.com") = .ok (cp "ana@example.com") :=
  ⟨by decide,
    ((validar_email_idempotent (cp "ANA@Example.com")).1 (cp "ana@example.com")
      (by decide)).2⟩


/-!  ## Lemmas about the phone model -/

/-- Decimal renderings hold only digit code points. -/
theorem natToDecFuel_digits : ∀ (fuel n : Nat), (natToDecFuel fuel n).all isDigitCp = true
  | 0, _ => rfl
  | fuel + 1, n => by
    rw [natToDecFuel]
    by_cases h : n < 10
    · rw [if_pos h]
      simp [isDigitCp]
      omega
    · rw [if_neg h, List.all_append, Bool.and_eq_true]
      refine ⟨natToDecFuel_digits fuel (n / 10), ?_⟩
      simp [isDigitCp]
      omega

/-- Decimal renderings hold only digit code points. -/
theorem natToDec_digits (n : Nat) : (natToDec n).all isDigitCp = true :=
  natToDecFuel_digits (n + 1) n

/-- Decimal renderings are nonempty. -/
theorem natToDec_ne_nil (n : Nat) : natToDec n ≠ [] := by
  rw [natToDec, natToDecFuel]
  by_cases h : n < 10
  · rw [if_pos h]; simp
  · rw [if_neg h]; simp

/-- A parsed phone number's national part is all digits. -/
theorem parse_ok_national_digits {tel region : PyStr} {num : PhoneNum}
    (h : phonenumbers_parse tel region = .ok num) :
    num.national.all isDigitCp = true := by
  rw [phonenumbers_parse] at h
  split at h
  · rename_i rest heq
    split at h
    · rename_i hcond
      split at h
      · have hnum : num = ⟨1, rest.drop (natToDec 1).length⟩ := (Except.ok.inj h).symm
        rw [hnum]
        rw [List.all_eq_true]
        intro x hx
        exact (List.all_eq_true.mp hcond.2) x (List.drop_subset _ _ hx)
      · split at h
        · have hnum : num = ⟨54, rest.drop (natToDec 54).length⟩ := (Except.ok.inj h).symm
          rw [hnum]
          rw [List.all_eq_true]
          intro x hx
          exact (List.all_eq_true.mp hcond.2) x (List.drop_subset _ _ hx)
        · exact Except.noConfusion h
    · exact Except.noConfusion h
  · split at h
    · rename_i hcond
      split at h
      · rename_i cc hcc
        have hnum : num = ⟨cc, stripPhoneSeps tel⟩ := (Except.ok.inj h).symm
        rw [hnum]
        exact hcond.2
      · exact Except.noConfusion h
    · exact Except.noConfusion h

/-- C8: every phone input accepted for a region is returned in E.164
form — a leading `+` followed by one or more digit code points and nothing
else; and whenever the parsed number is not both valid and valid for the
region, the function fails with the invalid-input `ValueError` instead of
returning a value. -/
theorem validar_telefono_E164 (tel region : PyStr) :
    (∀ r, validar_y_normalizar_telefono tel region = .ok r →
      ∃ ds, r = 43 :: ds ∧ ds ≠ [] ∧ ds.all isDigitCp = true) ∧
    (∀ num, phonenumbers_parse tel region = .ok num →
      (is_valid_number num && is_valid_number_for_region num region) = false →
      ∃ m, validar_y_normalizar_telefono tel region = .error (.valueError m)) := by
  constructor
  · intro r hr
    rw [validar_y_normalizar_telefono] at hr
    cases hp : phonenumbers_parse tel region with
    | error e => rw [hp] at hr; simp only [] at hr; exact Except.noConfusion hr
    | ok num =>
      rw [hp] at hr
      simp only [] at hr
      by_cases hv : (is_valid_number num && is_valid_number_for_region num region) = true
      · rw [if_pos hv] at hr
        have hr2 : r = format_E164 num := (Except.ok.inj hr).symm
        refine ⟨natToDec num.cc ++ num.national, by rw [hr2]; rfl, ?_, ?_⟩
        · intro hnil
          exact natToDec_ne_nil num.cc (List.append_eq_nil.mp hnil).1
        · rw [List.all_append, Bool.and_eq_true]
          exact ⟨natToDec_digits _, parse_ok_national_digits hp⟩
      · rw [if_neg hv] at hr
        exact Except.noConfusion hr
  · intro num hp hv
    rw [validar_y_normalizar_telefono, hp]
    simp only []
    rw [if_neg (by rw [hv]; exact Bool.false_ne_true)]
    exact ⟨_, rfl⟩

/-- Witness for C8: the regional input `415-555-2671` in region `US` is
accepted as `+14155552671`, which has the E.164 shape. -/
theorem validar_telefono_E164_witness :
    validar_y_normalizar_telefono (cp "415-555-2671") (cp "US") = .ok (cp "+14155552671") ∧
    ∃ ds, cp "+14155552671" = 43 :: ds ∧ ds ≠ [] ∧ ds.all isDigitCp = true :=
  ⟨by decide,
    (validar_telefono_E164 (cp "415-555-2671") (cp "US")).1 (cp "+14155552671") (by decide)⟩

/-!  ## Lemmas about the strptime model -/

/-- `%Y` reads a zero-padded four-digit year back. -/
theorem readY_pad4 {y : Nat} (h : y ≤ 9999) (rest : PyStr) :
    readY (pad4 y ++ rest) = some (y, rest) := by
  simp only [pad4, List.cons_append, List.nil_append]
  rw [readY]
  rw [if_pos ?hc]
  case hc =>
    simp only [isDigitCp, Bool.and_eq_true, decide_eq_true_eq]
    omega
  simp only [Option.some.injEq, Prod.mk.injEq, dv]
  exact ⟨by omega, trivial⟩

/-- A two-or-one-digit field reads a zero-padded two-digit value back
whenever the two-digit alternatives accept it. -/
theorem readField_pad2 (ok2 ok1 : Nat → Bool) {v : Nat} (h99 : v ≤ 99)
    (h2 : ok2 v = true) (rest : PyStr) :
    readField ok2 ok1 (pad2 v ++ rest) = some (v, rest) := by
  simp only [pad2, List.cons_append, List.nil_append]
  rw [readField]
  have hv : dv (48 + v / 10) * 10 + dv (48 + v % 10) = v := by
    simp only [dv]; omega
  rw [hv]
  rw [if_pos ?hc]
  case hc =>
    simp only [isDigitCp, Bool.and_eq_true, decide_eq_true_eq]
    refine ⟨⟨?_, ?_⟩, h2⟩ <;> simp <;> omega

/-- A literal reads itself. -/
theorem readLit_cons (l : Nat) (rest : PyStr) : readLit l (l :: rest) = some rest := by
  simp [readLit]

/-- No month is longer than 31 days. -/
theorem daysInMonth_le_31 (y mo : Nat) : daysInMonth y mo ≤ 31 := by
  unfold daysInMonth
  split
  · split <;> omega
  · split <;> omega

/-- The parser accepts every canonically rendered in-range date-time and
returns its fields. -/
theorem strptime_canonical {y mo d h mi : Nat} (hy : y ≤ 9999)
    (hmo1 : 1 ≤ mo) (hmo : mo ≤ 12) (hd1 : 1 ≤ d) (hd : d ≤ 31)
    (hh : h ≤ 23) (hmi : mi ≤ 59) :
    strptimeYmdHM
        (pad4 y ++ 45 :: (pad2 mo ++ 45 :: (pad2 d ++ 32 :: (pad2 h ++ 58 :: pad2 mi)))) =
      some ⟨y, mo, d, h, mi⟩ := by
  rw [strptimeYmdHM, readY_pad4 hy]
  simp only []
  rw [readLit_cons]
  simp only []
  rw [readField_pad2 _ _ (by omega) (by simp only [Bool.and_eq_true, decide_eq_true_eq]; omega)]
  simp only []
  rw [readLit_cons]
  simp only []
  rw [readField_pad2 _ _ (by omega) (by simp only [Bool.and_eq_true, decide_eq_true_eq]; omega)]
  simp only []
  rw [readLit_cons]
  simp only []
  rw [readField_pad2 _ _ (by omega) (by simp only [decide_eq_true_eq]; omega)]
  simp only []
  rw [readLit_cons]
  simp only []
  rw [(List.append_nil (pad2 mi)).symm,
    readField_pad2 _ _ (by omega) (by simp only [decide_eq_true_eq]; omega)]
  simp only [if_true]

/-- A successful `%Y` read is at most 9999. -/
theorem readY_inv {s rest : PyStr} {y : Nat} (h : readY s = some (y, rest)) :
    y ≤ 9999 := by
  unfold readY at h
  split at h
  · rename_i a b c d rest'
    split at h
    · rename_i hcond
      have hp := Option.some.inj h
      have hy : y = dv a * 1000 + dv b * 100 + dv c * 10 + dv d :=
        ((Prod.ext_iff.mp hp).1).symm
      simp only [isDigitCp, Bool.and_eq_true, decide_eq_true_eq] at hcond
      simp only [dv] at hy
      omega
    · exact Option.noConfusion h
  · exact Option.noConfusion h

/-- A successful field read comes from the two-digit alternatives (value
below 100) or the one-digit alternative (value below 10). -/
theorem readField_inv {ok2 ok1 : Nat → Bool} {s rest : PyStr} {v : Nat}
    (h : readField ok2 ok1 s = some (v, rest)) :
    (ok2 v = true ∧ v ≤ 99) ∨ (ok1 v = true ∧ v ≤ 9) := by
  unfold readField at h
  split at h
  · rename_i a b rest'
    split at h
    · rename_i hcond
      have hp := Option.some.inj h
      have hv : v = dv a * 10 + dv b := ((Prod.ext_iff.mp hp).1).symm
      simp only [Bool.and_eq_true] at hcond
      refine .inl ⟨by rw [hv]; exact hcond.2, ?_⟩
      have := hcond.1
      simp only [Bool.and_eq_true, isDigitCp, decide_eq_true_eq] at this
      simp only [dv] at hv
      omega
    · split at h
      · rename_i hcond2
        have hp := Option.some.inj h
        have hv : v = dv a := ((Prod.ext_iff.mp hp).1).symm
        simp only [Bool.and_eq_true, isDigitCp, decide_eq_true_eq] at hcond2
        refine .inr ⟨by rw [hv]; exact hcond2.2, ?_⟩
        simp only [dv] at hv
        omega
      · exact Option.noConfusion h
  · rename_i a
    split at h
    · rename_i hcond
      have hp := Option.some.inj h
      have hv : v = dv a := ((Prod.ext_iff.mp hp).1).symm
      simp only [Bool.and_eq_true, isDigitCp, decide_eq_true_eq] at hcond
      refine .inr ⟨by rw [hv]; exact hcond.2, ?_⟩
      simp only [dv] at hv
      omega
    · exact Option.noConfusion h
  · exact Option.noConfusion h

/-- Every parse result is field-wise within the ranges the format's
regular expression enforces. -/
theorem strptimeYmdHM_inv {s : PyStr} {dt : DT} (h : strptimeYmdHM s = some dt) :
    dt.y ≤ 9999 ∧ 1 ≤ dt.mo ∧ dt.mo ≤ 12 ∧ 1 ≤ dt.d ∧ dt.d ≤ 31 ∧
      dt.h ≤ 23 ∧ dt.mi ≤ 59 := by
  rw [strptimeYmdHM] at h
  split at h
  · exact Option.noConfusion h
  · rename_i y s1 hy
    split at h
    · exact Option.noConfusion h
    · rename_i s2 hl1
      split at h
      · exact Option.noConfusion h
      · rename_i mo s3 hmo
        split at h
        · exact Option.noConfusion h
        · rename_i s4 hl2
          split at h
          · exact Option.noConfusion h
          · rename_i d s5 hd
            split at h
            · exact Option.noConfusion h
            · rename_i s6 hl3
              split at h
              · exact Option.noConfusion h
              · rename_i hh s7 hhp
                split at h
                · exact Option.noConfusion h
                · rename_i s8 hl4
                  split at h
                  · exact Option.noConfusion h
                  · rename_i mi s9 hmi
                    split at h
                    · have hdt : dt = ⟨y, mo, d, hh, mi⟩ := (Option.some.inj h).symm
                      subst hdt
                      have h1 := readY_inv hy
                      have h2 := readField_inv hmo
                      have h3 := readField_inv hd
                      have h4 := readField_inv hhp
                      have h5 := readField_inv hmi
                      simp only [Bool.and_eq_true, decide_eq_true_eq] at h2 h3 h4 h5
                      refine ⟨h1, ?_, ?_, ?_, ?_, ?_, ?_⟩ <;> dsimp only <;> omega
                    · exact Option.noConfusion h

/-- C9 (amended): combining a date and a time succeeds exactly on the
inputs the lenient strptime patterns accept — every zero-padded in-range
`YYYY-MM-DD` date (with a day valid for its month, Gregorian leap years
included) with a zero-padded `HH:MM` time succeeds; every success returns
the canonical zero-padded `"YYYY-MM-DD HH:MM"` rendering of in-range field
values (the parser also accepts unpadded month, day, hour or minute — see
the counterexample); and every failure carries the `ValueError` message
citing the expected formats. -/
theorem combine_fecha_hora_spec (fecha hora : PyStr) :
    (∀ y mo d h mi : Nat, 1 ≤ y → y ≤ 9999 → 1 ≤ mo → mo ≤ 12 → 1 ≤ d →
      d ≤ daysInMonth y mo → h ≤ 23 → mi ≤ 59 →
      fecha = pad4 y ++ 45 :: (pad2 mo ++ 45 :: pad2 d) →
      hora = pad2 h ++ 58 :: pad2 mi →
      _combine_fecha_hora fecha hora = .ok (canonicalDT y mo d h mi)) ∧
    (∀ r, _combine_fecha_hora fecha hora = .ok r →
      ∃ y mo d h mi, 1 ≤ y ∧ y ≤ 9999 ∧ 1 ≤ mo ∧ mo ≤ 12 ∧ 1 ≤ d ∧
        d ≤ daysInMonth y mo ∧ h ≤ 23 ∧ mi ≤ 59 ∧ r = canonicalDT y mo d h mi) ∧
    (∀ e, _combine_fecha_hora fecha hora = .error e → e = .valueError msgFechaHora) := by
  refine ⟨?_, ?_, ?_⟩
  · intro y mo d h mi hy1 hy hmo1 hmo hd1 hd hh hmi hf ho
    subst hf ho
    have hd31 : d ≤ 31 := le_trans hd (daysInMonth_le_31 y mo)
    have hs : (pad4 y ++ 45 :: (pad2 mo ++ 45 :: pad2 d)) ++ 32 :: (pad2 h ++ 58 :: pad2 mi) =
        pad4 y ++ 45 :: (pad2 mo ++ 45 :: (pad2 d ++ 32 :: (pad2 h ++ 58 :: pad2 mi))) := by
      simp [List.append_assoc]
    rw [_combine_fecha_hora, hs, strptime_canonical hy hmo1 hmo hd1 hd31 hh hmi]
    simp only []
    rw [if_pos (by simp only [datetimeOk, Bool.and_eq_true, decide_eq_true_eq]; omega)]
  · intro r hr
    rw [_combine_fecha_hora] at hr
    cases hst : strptimeYmdHM (fecha ++ 32 :: hora) with
    | none => rw [hst] at hr; exact Except.noConfusion hr
    | some dt =>
      rw [hst] at hr
      simp only [] at hr
      by_cases hok : datetimeOk dt.y dt.mo dt.d = true
      · rw [if_pos hok] at hr
        have hinv := strptimeYmdHM_inv hst
        simp only [datetimeOk, Bool.and_eq_true, decide_eq_true_eq] at hok
        exact ⟨dt.y, dt.mo, dt.d, dt.h, dt.mi, hok.1.1, hinv.1, hinv.2.1, hinv.2.2.1,
          hok.1.2, hok.2, hinv.2.2.2.2.2.1, hinv.2.2.2.2.2.2,
          (Except.ok.inj hr).symm⟩
      · rw [if_neg hok] at hr
        exact Except.noConfusion hr
  · intro e he
    rw [_combine_fecha_hora] at he
    cases hst : strptimeYmdHM (fecha ++ 32 :: hora) with
    | none =>
      rw [hst] at he
      simp only [] at he
      exact ((Except.error.inj he).symm ▸ rfl)
    | some dt =>
      rw [hst] at he
      simp only [] at he
      by_cases hok : datetimeOk dt.y dt.mo dt.d = true
      · rw [if_pos hok] at he
        exact Except.noConfusion he
      · rw [if_neg hok] at he
        exact (Except.error.inj he).symm

/-- C9 counterexample: `_combine_fecha_hora` also succeeds on the
unpadded date `"2024-2-3"`, which is not in the claim's `YYYY-MM-DD`
format (the success is not "exactly when the date parses in format
YYYY-MM-DD"), returning the canonical zero-padded rendering. -/
theorem combine_fecha_hora_counterexample :
    _combine_fecha_hora (cp "2024-2-3") (cp "10:00") = .ok (cp "2024-02-03 10:00") ∧
    strictDateB (cp "2024-2-3") = false := ⟨by decide, by decide⟩

/-- Witness for C9 (amended): the strictly formatted valid inputs
`"2024-02-03"` and `"10:00"` succeed with the canonical combined
rendering (while `"2024-02-30"`, an invalid calendar date, fails with the
format-citing message — checked against the same theorem's error
clause). -/
theorem combine_fecha_hora_spec_witness :
    _combine_fecha_hora (cp "2024-02-03") (cp "10:00") = .ok (canonicalDT 2024 2 3 10 0) ∧
    ∀ e, _combine_fecha_hora (cp "2024-02-30") (cp "10:00") = .error e →
      e = .valueError msgFechaHora :=
  ⟨(combine_fecha_hora_spec (cp "2024-02-03") (cp "10:00")).1 2024 2 3 10 0
      (by decide) (by decide) (by decide) (by decide) (by decide) (by decide)
      (by decide) (by decide) (by decide) (by decide),
    (combine_fecha_hora_spec (cp "2024-02-30") (cp "10:00")).2.2⟩

end Gestor
